import Mathlib

/-!
Verification of the supabase-dataobject-core binding/reactivity engine.

This file shallowly embeds the parts of the TypeScript source that the
checked properties are about: the change-tracked record wrapper
(`src/dataRecord.ts`), the collection controller (`src/dataObject.ts`),
the per-controller flag state machine (`src/dataObjectState.ts`) and the
master-binding coordinator (`src/masterBinding.ts`).

Modelling conventions:
- JS primitive values that can appear in a fetched row are modelled by
  `Value` (JSON has no `undefined`, so a *present* row key is never
  undefined; reading an *absent* key yields `undefined`, modelled as
  `none : Option Value`).  JS strict equality on these primitives is
  equality of `Option Value`.
- A row object is an association list `Row`; key update keeps the first
  occurrence in place and appends new keys, matching JS property writes.
- JS object identity is modelled by a `ref : Nat` tag; every allocation
  (wrapping a fetched row, or the raw row an insert returns) takes a
  fresh tag from the controller's `nextRef` counter.
- Asynchronous backend calls are modelled by passing the would-be backend
  response in as data and recording the issued call in an effect list;
  events, diagnostics callbacks and cascaded child refreshes are likewise
  recorded as effects.  Message strings of the diagnostics channel are
  elided.  The grouping engine (`applyGrouping`) only rewrites the
  derived `groupedData` view and is not modelled; listener bookkeeping of
  the controller's own emitters is not modelled either.
-/

namespace SupabaseCore

/-- A primitive JSON value as returned by the query executor or written to a
record field.  `vnull` is JS `null`; JS `undefined` is represented at use
sites by `none : Option Value`. -/
inductive Value where
  | vnull : Value
  | vint : Int → Value
  | vstr : String → Value
  | vbool : Bool → Value
deriving DecidableEq

/-- A JS row object: an association list from property names to values. -/
abbrev Row := List (String × Value)

namespace Row

/-- Property read `obj[k]`: the first binding of `k`, `none` when the key is
absent (JS `undefined`). -/
def get? : Row → String → Option Value
  | [], _ => none
  | p :: rest, k => if p.1 = k then some p.2 else get? rest k

/-- Property write `obj[k] = v`: replaces the first binding of `k` in place,
or appends the key, matching JS property-order semantics. -/
def setKey : Row → String → Value → Row
  | [], k, v => [(k, v)]
  | p :: rest, k, v => if p.1 = k then (k, v) :: rest else p :: setKey rest k v

/-- Property deletion `delete obj[k]`. -/
def eraseKey : Row → String → Row
  | [], _ => []
  | p :: rest, k => if p.1 = k then eraseKey rest k else p :: eraseKey rest k

/-- `Object.keys obj`. -/
def keys (r : Row) : List String := r.map Prod.fst

theorem get?_setKey_self (r : Row) (k : String) (v : Value) :
    (r.setKey k v).get? k = some v := by
  induction r with
  | nil => simp [setKey, get?]
  | cons p rest ih =>
    by_cases h : p.1 = k
    · simp [setKey, h, get?]
    · simp [setKey, h, get?, ih]

theorem get?_setKey_ne (r : Row) (k k' : String) (v : Value) (h : k' ≠ k) :
    (r.setKey k v).get? k' = r.get? k' := by
  have hk : k ≠ k' := Ne.symm h
  induction r with
  | nil => simp [setKey, get?, hk]
  | cons p rest ih =>
    by_cases hp : p.1 = k
    · subst hp
      simp [setKey, get?, hk]
    · simp [setKey, hp, get?, ih]

theorem get?_eraseKey_self (r : Row) (k : String) :
    (r.eraseKey k).get? k = none := by
  induction r with
  | nil => simp [eraseKey, get?]
  | cons p rest ih =>
    by_cases h : p.1 = k
    · simp [eraseKey, h, ih]
    · simp [eraseKey, h, get?, ih]

theorem get?_eraseKey_ne (r : Row) (k k' : String) (h : k' ≠ k) :
    (r.eraseKey k).get? k' = r.get? k' := by
  have hk : k ≠ k' := Ne.symm h
  induction r with
  | nil => simp [eraseKey]
  | cons p rest ih =>
    by_cases hp : p.1 = k
    · subst hp
      simp [eraseKey, get?, hk, ih]
    · simp [eraseKey, hp, get?, ih]

end Row

/-- The change-tracked record wrapper (`DataRecord` in `src/dataRecord.ts`).
`record` is the live view (`_record`), `original` the baseline snapshot
(`_original`), `pendingChanges` the dirty-field map (`_pendingChanges`);
`ref` models the JS object identity of the wrapper. -/
structure DataRecord where
  ref : Nat
  record : Row
  original : Row
  pendingChanges : Row
deriving DecidableEq

/-- The `DataRecord` constructor: live view takes the raw row, the baseline
is `structuredClone(rawRecord)` (a value copy), pending changes start empty.
`ref` is the fresh identity of the allocated wrapper. -/
def wrapRecord (ref : Nat) (raw : Row) : DataRecord :=
  ⟨ref, raw, raw, []⟩

namespace DataRecord

/-- `get hasChanges()`: whether any field is dirty. -/
def hasChanges (r : DataRecord) : Bool := !r.pendingChanges.isEmpty

/-- `get id()`: reads the live row's `id` property. -/
def idVal (r : DataRecord) : Option Value := r.record.get? "id"

/-- The proxy `set` trap for a data field (a property not on the wrapper
class itself): if the incoming value differs from the live value, write it
through; then either un-dirty the field (when it equals the baseline) or
record it in the pending-change map.  The `onFieldChanged` observer call is
an effect on the owning controller and is not modelled here. -/
def setField (r : DataRecord) (key : String) (value : Value) : DataRecord :=
  if r.record.get? key = some value then r
  else
    { r with
      record := r.record.setKey key value
      pendingChanges :=
        if some value = r.original.get? key then r.pendingChanges.eraseKey key
        else r.pendingChanges.setKey key value }

/-- The loop body of `revert()`: walk the baseline's entries and write each
baseline value back onto the live row when it differs. -/
def restoreFromBaseline (original acc : Row) : Row :=
  original.foldl
    (fun acc p => if acc.get? p.1 ≠ some p.2 then acc.setKey p.1 p.2 else acc) acc

/-- `revert()`: restores every baseline field onto the live view and clears
the pending-change map. -/
def revert (r : DataRecord) : DataRecord :=
  { r with
    record := restoreFromBaseline r.original r.record
    pendingChanges := [] }

/-- `applyServerUpdates(updates)`: merges the confirmed values into the live
view, re-snapshots the baseline from it, and clears pending changes. -/
def applyServerUpdates (r : DataRecord) (updates : Row) : DataRecord :=
  let merged := updates.foldl (fun acc p => acc.setKey p.1 p.2) r.record
  { r with record := merged, original := merged, pendingChanges := [] }

/-- The pending-change map never records a value equal to the field's own
baseline value. -/
def pendingDiffersFromBaseline (r : DataRecord) : Prop :=
  ∀ k v, r.pendingChanges.get? k = some v → r.original.get? k ≠ some v

end DataRecord

/-- One intercepted operation on a record: a trapped field write, a
`revert()` call, or an `applyServerUpdates()` call. -/
inductive RecOp where
  | setF (k : String) (v : Value)
  | revertOp
  | applyServer (u : Row)

/-- Run one record operation. -/
def DataRecord.applyOp (r : DataRecord) : RecOp → DataRecord
  | .setF k v => r.setField k v
  | .revertOp => r.revert
  | .applyServer u => r.applyServerUpdates u

/-- Run a sequence of record operations. -/
def DataRecord.applyOps (r : DataRecord) (ops : List RecOp) : DataRecord :=
  ops.foldl DataRecord.applyOp r

/-- A filter/sort operator of the declarative query spec (`SupportedOperator`
in `src/types.ts`). -/
inductive SupportedOperator where
  | equals | notequals | greaterthan | lessthan
  | isnull | isnotnull | like | ilike
deriving DecidableEq

/-- A declarative filter clause (`WhereClause`): the `value` is optional. -/
structure WhereClause where
  field : String
  operator : SupportedOperator
  value : Option Value
deriving DecidableEq

/-- A declared field (`DataObjectField`); the optional type tag plays no
role in the modelled behaviour but is kept for fidelity. -/
structure DataObjectField where
  name : String
  fieldType : Option String
deriving DecidableEq

/-- Sort configuration (`SortConfig`); `direction` is the literal string
(the source compares it against the string asc). -/
structure SortConfig where
  field : String
  direction : String
deriving DecidableEq

/-- Static master-binding configuration (`MasterDataObjectBinding`). -/
structure MasterDataObjectBinding where
  masterDataObjectId : String
  childBindingField : String
  masterBindingField : String
deriving DecidableEq

/-- Controller options (`DataObjectOptions`).  Optional fields are `Option`;
`none` is an absent (undefined) option.  The `groupBy` and `allowedBuckets`
options only drive the grouping view and the storage helper, which are not
modelled. -/
structure DataObjectOptions where
  viewName : String
  tableName : Option String
  fields : Option (List DataObjectField)
  whereClauses : Option (List WhereClause)
  sort : Option SortConfig
  recordLimit : Option Nat
  canInsert : Option Bool
  canUpdate : Option Bool
  canDelete : Option Bool
  masterDataObjectBinding : Option MasterDataObjectBinding
  autoRefresh : Option Bool
deriving DecidableEq

/-- JS truthiness of an optional string (absent and the empty string are
falsy). -/
def truthyStr (s : Option String) : Bool :=
  match s with
  | none => false
  | some t => !t.isEmpty

/-- `DataObject.setDefaultOptions`: fills in the defaults the constructor
applies — in particular `recordLimit: options.recordLimit ?? 100` and the
capability flags that are forced to `false` without a `tableName`. -/
def setDefaultOptions (options : DataObjectOptions) : DataObjectOptions :=
  { options with
    whereClauses := some (options.whereClauses.getD [])
    recordLimit := some (options.recordLimit.getD 100)
    canInsert := some (if truthyStr options.tableName then options.canInsert.getD false else false)
    canUpdate := some (if truthyStr options.tableName then options.canUpdate.getD false else false)
    canDelete := some (if truthyStr options.tableName then options.canDelete.getD false else false)
    autoRefresh := some (options.autoRefresh.getD true) }

/-- The query specification a load hands to the executor: the accumulated
supabase query builder state at the point of `await query`. -/
structure Query where
  viewName : String
  selectFields : Option (List String)
  filters : List WhereClause
  sort : Option SortConfig
  limit : Option Nat
deriving DecidableEq

/-- Names of the lifecycle events (`DataObjectEvents`). -/
inductive EventName where
  | beforeLoad | afterLoad | beforeRefresh | afterRefresh
  | beforeInsert | afterInsert | beforeUpdate | afterUpdate
  | beforeDelete | afterDelete | fieldChanged | currentRecordChanged
deriving DecidableEq

/-- An externally observable action of a controller operation: a lifecycle
event emission, a change-notifier fire, a backend call, a diagnostics
callback, a cascaded child-refresh trigger, a registration on the master's
child list, or a recursive child disposal. -/
inductive Effect where
  | emit (e : EventName)
  | dataChanged
  | runQuery (q : Query)
  | insertRow (table : String) (r : Row)
  | updateRow (table : String) (id : Value) (updates : Row)
  | deleteRow (table : String) (id : Value)
  | warnMsg
  | errorMsg
  | infoMsg
  | childRefresh
  | masterChildRegistered
  | childDispose
deriving DecidableEq

/-- Whether an effect is a call into the backend (query or row mutation). -/
def isBackendCall : Effect → Bool
  | .runQuery _ => true
  | .insertRow _ _ => true
  | .updateRow _ _ _ => true
  | .deleteRow _ _ => true
  | _ => false

/-- The backend calls among a list of effects. -/
def backendCalls (effs : List Effect) : List Effect := effs.filter isBackendCall

/-- The read queries among a list of effects. -/
def queriesOf (effs : List Effect) : List Query :=
  effs.filterMap (fun e => match e with | .runQuery q => some q | _ => none)

/-- How many warnings a list of effects reports. -/
def warnCount (effs : List Effect) : Nat :=
  (effs.filter (fun e => match e with | .warnMsg => true | _ => false)).length

/-- The per-controller flag state machine (`DataObjectState` in
`src/dataObjectState.ts`). -/
structure DataObjectState where
  isReady : Bool
  isRefreshing : Bool
  isUpdating : Bool
  isSaving : Bool
  isDestroyed : Bool
deriving DecidableEq

/-- `DataObjectState.reset()`: sets every flag back to `false` — including
`isDestroyed` (`src/dataObjectState.ts` lines 27-33). -/
def DataObjectState.reset (_s : DataObjectState) : DataObjectState :=
  ⟨false, false, false, false, false⟩

/-- The child controller's view of a resolved master controller, as the
binding's `initialize()` reads it after `waitForReady()`: its field list and
its current record's raw row. -/
structure MasterView where
  fields : List DataObjectField
  currentRecord : Option Row
deriving DecidableEq

/-- The runtime master-binding state (`MasterBinding` in
`src/masterBinding.ts`).  The two Booleans model which listeners the binding
holds on the *master's* emitter: the stored `_masterDataChangeListener` on
`currentRecordChanged`, and the anonymous closure on `afterRefresh`. -/
structure MasterBinding where
  bindingDef : MasterDataObjectBinding
  bindingWhereClause : Option WhereClause
  masterDataChangeListener : Bool
  afterRefreshListenerOnMaster : Bool
deriving DecidableEq

/-- `validateBindingFields`: the child's binding field must be in the
child's field list and the master's binding field in the master's. -/
def validateBindingFields (childFields masterFields : List DataObjectField)
    (bdef : MasterDataObjectBinding) : Bool :=
  (childFields.any (fun f => f.name == bdef.childBindingField)) &&
  (masterFields.any (fun f => f.name == bdef.masterBindingField))

/-- `addMasterBindingWhereClause`, as a function of the master's current
record: no clause when the master has no current record, or when the bound
field's value is absent (undefined) or null; otherwise an equality clause
`childField equals value`. -/
def computeBindingWhereClause (bdef : MasterDataObjectBinding)
    (masterCurrent : Option Row) : Option WhereClause :=
  match masterCurrent with
  | none => none
  | some rec =>
    match Row.get? rec bdef.masterBindingField with
    | none => none
    | some Value.vnull => none
    | some v => some ⟨bdef.childBindingField, SupportedOperator.equals, some v⟩

/-- `setupMasterDataChangeListener`: registers the stored listener on the
master's `currentRecordChanged` and an anonymous closure on the master's
`afterRefresh`. -/
def setupMasterDataChangeListener (b : MasterBinding) : MasterBinding :=
  { b with masterDataChangeListener := true, afterRefreshListenerOnMaster := true }

/-- `MasterBinding.initialize()`: resolve the master through the registry
(being handed `none` models an unresolvable master id), validate the binding
fields, and on success compute the derived clause, attach both master-side
listeners and register the child on the master's child list.  On either
failure the binding is left without a clause or listeners, and a single
warning is reported when an `onWarning` handler was supplied. -/
def MasterBinding.initBinding (bdef : MasterDataObjectBinding)
    (childFields : List DataObjectField) (master : Option MasterView)
    (hasWarningHandler hasInfoHandler : Bool) : MasterBinding × List Effect :=
  match master with
  | none =>
    (⟨bdef, none, false, false⟩, if hasWarningHandler then [Effect.warnMsg] else [])
  | some m =>
    if !(validateBindingFields childFields m.fields bdef) then
      (⟨bdef, none, false, false⟩, if hasWarningHandler then [Effect.warnMsg] else [])
    else
      (setupMasterDataChangeListener
        ⟨bdef, computeBindingWhereClause bdef m.currentRecord, false, false⟩,
       [Effect.masterChildRegistered] ++ (if hasInfoHandler then [Effect.infoMsg] else []))

/-- `onMasterDataChanged` (fires while the `currentRecordChanged` listener is
attached): recomputes the derived clause from the master's new current
record. -/
def MasterBinding.onMasterDataChanged (b : MasterBinding)
    (masterCurrent : Option Row) : MasterBinding :=
  if b.masterDataChangeListener then
    { b with bindingWhereClause := computeBindingWhereClause b.bindingDef masterCurrent }
  else b

/-- `MasterBinding.dispose()`: detaches the stored `currentRecordChanged`
listener and clears the derived clause; the anonymous `afterRefresh`
listener on the master is left attached. -/
def MasterBinding.dispose (b : MasterBinding) : MasterBinding :=
  { b with masterDataChangeListener := false, bindingWhereClause := none }

/-- The body of the anonymous `afterRefresh` listener the binding registers
on the master: when the master finishes a refresh, the child is refreshed
provided the child's `autoRefresh` option is enabled.  Returns whether a
child refresh is triggered. -/
def masterAfterRefreshTriggersChildRefresh (b : MasterBinding)
    (childAutoRefresh : Bool) : Bool :=
  b.afterRefreshListenerOnMaster && childAutoRefresh

/-- The flags of a registered child controller that the `currentRecord`
setter's cascade inspects. -/
structure ChildView where
  isDestroyed : Bool
  isReady : Bool
deriving DecidableEq

/-- The collection controller (`DataObject` in `src/dataObject.ts`),
restricted to the state the checked properties are about.  `nextRef` is the
allocator for JS object identities (`DataRecord.ref`). -/
structure DataObject where
  options : DataObjectOptions
  fields : List DataObjectField
  data : List DataRecord
  currentRecord : Option DataRecord
  state : DataObjectState
  masterBinding : Option MasterBinding
  childDataObjects : List ChildView
  nextRef : Nat
deriving DecidableEq

/-- `record?.id` on an optional record: `undefined` when the record is
absent or its row has no `id` key. -/
def currentIdOf (r : Option DataRecord) : Option Value :=
  r.bind DataRecord.idVal

/-- The `currentRecord` setter: a no-op when the incoming record's id
strictly equals the existing one's (`this._currentRecord?.id ===
record?.id`); otherwise stores the record, emits `currentRecordChanged`,
fires the change notifier, and triggers a refresh of every registered child
that is neither destroyed nor unready (the children's own refreshes are
separate controller operations, recorded only as `childRefresh` markers). -/
def setCurrentRecord (st : DataObject) (record : Option DataRecord) :
    DataObject × List Effect :=
  if currentIdOf st.currentRecord = currentIdOf record then (st, [])
  else
    ({ st with currentRecord := record },
      [Effect.emit EventName.currentRecordChanged, Effect.dataChanged] ++
        st.childDataObjects.filterMap (fun c =>
          if !c.isDestroyed && c.isReady then some Effect.childRefresh else none))

/-- The input a single `loadData` cycle consumes: whether some `beforeLoad`
handler cancels, and the backend response to the built query (absent on a
backend error). -/
structure LoadInput where
  cancelBeforeLoad : Bool
  response : Option (List Row)
deriving DecidableEq

/-- The field-list assignment at the top of `loadData`: declared fields
replace the inferred ones only when a non-empty field list was declared. -/
def inferredFields (options : DataObjectOptions)
    (current : List DataObjectField) : List DataObjectField :=
  match options.fields with
  | some fs => if fs.length > 0 then fs else current
  | none => current

/-- The query `loadData` accumulates before executing: select list, declared
where clauses, the master-binding equality filter when one applies, sort,
and the record limit (applied only when the option is truthy). -/
def buildQuery (options : DataObjectOptions) (bindingFilter : Option WhereClause) : Query :=
  ⟨options.viewName,
   (match options.fields with
    | some fs => if fs.length > 0 then some (fs.map DataObjectField.name) else none
    | none => none),
   (options.whereClauses.getD []) ++
     (match bindingFilter with | some c => [c] | none => []),
   options.sort,
   if options.recordLimit.getD 0 ≠ 0 then some (options.recordLimit.getD 0) else none⟩

/-- Wrapping of the fetched rows in reactive proxies: each wrapper is a
fresh allocation. -/
def allocRecords (start : Nat) : List Row → List DataRecord
  | [] => []
  | row :: rest => wrapRecord start row :: allocRecords (start + 1) rest

/-- The state of a controller right after a successful fetch replaced its
collection with fresh wrappers (`this.data = rawData.map(...)` and the
identity-allocator bump), before the current record is reassigned. -/
def loadReplacedState (st : DataObject) (rows : List Row) : DataObject :=
  { st with data := allocRecords st.nextRef rows, nextRef := st.nextRef + rows.length }

/-- The master-binding short-circuit branch of `loadData` (lines 259-271):
empties the collection, clears the current record through the setter, marks
ready, emits `afterLoad` and returns — the `finally` stage still runs,
marking ready and clearing the refreshing flag. -/
def shortCircuitEmptyResult (st : DataObject) : DataObject × List Effect :=
  let stA := { st with data := ([] : List DataRecord) }
  let cleared := setCurrentRecord stA none
  let stB := { cleared.1 with state := { cleared.1.state with isReady := true } }
  let stC := { stB with state := { stB.state with isReady := true, isRefreshing := false } }
  (stC, cleared.2 ++ [Effect.emit EventName.afterLoad])

/-- The main-query tail of `loadData`: execute the built query; on error
report it and mark ready; on success replace all records with fresh
wrappers, set the current record to the first row or undefined (the ternary
`data.length > 0 ? this.data[0] : undefined` is the head of the new
collection), fire the change notifier and emit `afterLoad`.  Either way the `finally` stage marks
ready and clears the refreshing flag.  (`applyGrouping` recomputes only the
unmodelled grouping view.) -/
def runMainQuery (st : DataObject) (bindingFilter : Option WhereClause)
    (inp : LoadInput) : DataObject × List Effect :=
  let q := buildQuery st.options bindingFilter
  match inp.response with
  | none =>
    ({ st with state := { st.state with isReady := true, isRefreshing := false } },
     [Effect.runQuery q, Effect.errorMsg])
  | some rows =>
    let stA := loadReplacedState st rows
    let afterSet := setCurrentRecord stA (allocRecords st.nextRef rows).head?
    let stB := { afterSet.1 with
      state := { afterSet.1.state with isReady := true, isRefreshing := false } }
    (stB, [Effect.runQuery q] ++ afterSet.2 ++
      [Effect.dataChanged, Effect.emit EventName.afterLoad])

/-- `loadData` (`src/dataObject.ts` lines 204-311): emit the cancellable
`beforeLoad` hook; when not cancelled, raise the refreshing flag, take the
declared fields, and either short-circuit to an empty result (a master
binding whose derived clause is absent or whose value is undefined/null)
or build and execute the query. -/
def loadData (st : DataObject) (inp : LoadInput) : DataObject × List Effect :=
  if inp.cancelBeforeLoad then (st, [Effect.emit EventName.beforeLoad])
  else
    let st2 := { st with
      state := { st.state with isRefreshing := true }
      fields := inferredFields st.options st.fields }
    let tail :=
      match st2.masterBinding with
      | some mb =>
        match mb.bindingWhereClause with
        | none => shortCircuitEmptyResult st2
        | some c =>
          if c.value = none ∨ c.value = some Value.vnull then
            shortCircuitEmptyResult st2
          else
            runMainQuery st2 (some ⟨c.field, SupportedOperator.equals, c.value⟩) inp
      | none => runMainQuery st2 none inp
    (tail.1, Effect.emit EventName.beforeLoad :: tail.2)

/-- The input a `refresh` cycle consumes: whether a `beforeRefresh` handler
cancels, plus the inner load's input. -/
structure RefreshInput where
  cancelBeforeRefresh : Bool
  load : LoadInput
deriving DecidableEq

/-- The body of `refresh` after the guard: the caller has already raised the
refreshing flag.  Emits the cancellable `beforeRefresh` hook, runs
`loadData`, emits `afterRefresh`; the `finally` stage clears the flag on
every path. -/
def refreshBody (st : DataObject) (inp : RefreshInput) : DataObject × List Effect :=
  if inp.cancelBeforeRefresh then
    ({ st with state := { st.state with isRefreshing := false } },
     [Effect.emit EventName.beforeRefresh])
  else
    let loaded := loadData st inp.load
    ({ loaded.1 with state := { loaded.1.state with isRefreshing := false } },
     [Effect.emit EventName.beforeRefresh] ++ loaded.2 ++
       [Effect.emit EventName.afterRefresh])

/-- `refresh` (`src/dataObject.ts` lines 324-344): dropped as a no-op while
the `isRefreshing` flag is set; otherwise raises the flag and runs the
body. -/
def refresh (st : DataObject) (inp : RefreshInput) : DataObject × List Effect :=
  if st.state.isRefreshing then (st, [])
  else refreshBody { st with state := { st.state with isRefreshing := true } } inp

/-- Two concurrent `refresh()` calls under the cooperative scheduler: the
first call synchronously raises the flag before its first suspension point;
the second call runs while the first is suspended and sees the flag; the
first then resumes and completes.  The combined effect list is observed. -/
def twoConcurrentRefreshes (st : DataObject) (inpA inpB : RefreshInput) :
    DataObject × List Effect :=
  if st.state.isRefreshing then (st, [])
  else
    let stFlag := { st with state := { st.state with isRefreshing := true } }
    let second := refresh stFlag inpB
    let first := refreshBody second.1 inpA
    (first.1, second.2 ++ first.2)

/-- The input an `insert` consumes: whether a `beforeInsert` handler
cancels, the backend's response to the row insert (`none` on error, else
the returned row array), and the input for the follow-up refresh. -/
structure InsertInput where
  cancelBeforeInsert : Bool
  result : Option (List Row)
  refreshInput : RefreshInput
deriving DecidableEq

/-- `insert` (`src/dataObject.ts` lines 417-460): requires the `canInsert`
capability and a configured `tableName`; emits the cancellable
`beforeInsert` hook; executes the backend insert; on success stores the raw
returned row *directly* into `_currentRecord` when `setAsCurrent` holds
(bypassing the setter — the raw row is a fresh JS object, modelled by a
fresh `ref`), emits `afterInsert`, awaits a full `refresh`, and returns the
raw row.  Failures return `none` after reporting. -/
def insert (st : DataObject) (record : Row) (setAsCurrent : Bool)
    (inp : InsertInput) : DataObject × List Effect × Option Row :=
  if !(st.options.canInsert.getD false) || !(truthyStr st.options.tableName) then
    (st, [Effect.warnMsg], none)
  else
    if inp.cancelBeforeInsert then (st, [Effect.emit EventName.beforeInsert], none)
    else
      let table := st.options.tableName.getD ""
      let effs1 := [Effect.emit EventName.beforeInsert, Effect.insertRow table record]
      match inp.result with
      | none => (st, effs1 ++ [Effect.errorMsg], none)
      | some rows =>
        match rows.head? with
        | none => (st, effs1 ++ [Effect.errorMsg], none)
        | some newRecord =>
          let stA :=
            if setAsCurrent then
              { st with
                currentRecord := some (wrapRecord st.nextRef newRecord)
                nextRef := st.nextRef + 1 }
            else st
          let refreshed := refresh stA inp.refreshInput
          (refreshed.1,
           effs1 ++ [Effect.emit EventName.afterInsert] ++ refreshed.2 ++ [Effect.infoMsg],
           some newRecord)

/-- Replace the first record whose `id` matches, mirroring a mutation of the
object `this.data.find(...)` returns. -/
def replaceFirstById (l : List DataRecord) (id : Value)
    (f : DataRecord → DataRecord) : List DataRecord :=
  match l with
  | [] => []
  | x :: rest =>
    if x.idVal = some id then f x :: rest else x :: replaceFirstById rest id f

/-- The input an `update` consumes: whether a `beforeUpdate` handler
cancels, whether the backend update succeeds, and the input for the
follow-up refresh (unused when the refresh is skipped). -/
structure UpdateInput where
  cancelBeforeUpdate : Bool
  resultOk : Bool
  refreshInput : RefreshInput
deriving DecidableEq

/-- `update` (`src/dataObject.ts` lines 470-521): requires the `canUpdate`
capability and a `tableName`; silently returns `false` when no loaded
record has the id; emits the cancellable `beforeUpdate` hook; raises
`isUpdating`, executes the backend update; on success either applies the
confirmed values onto the matching record (`skipRefresh`) or awaits a full
refresh; emits `afterUpdate` when a record with the id is still loaded;
`finally` clears `isUpdating`.  (A skip-refresh update mutates the record
aliased by `this.data`; a stale alias in `_currentRecord` is not updated by
the model, and no checked property observes it.) -/
def update (st : DataObject) (id : Value) (updates : Row) (skipRefresh : Bool)
    (inp : UpdateInput) : DataObject × List Effect × Bool :=
  if !(st.options.canUpdate.getD false) || !(truthyStr st.options.tableName) then
    (st, [Effect.warnMsg], false)
  else
    if st.data.all (fun x => !(x.idVal == some id)) then (st, [], false)
    else
      if inp.cancelBeforeUpdate then (st, [Effect.emit EventName.beforeUpdate], false)
      else
        let stU := { st with state := { st.state with isUpdating := true } }
        let table := stU.options.tableName.getD ""
        let effs1 := [Effect.emit EventName.beforeUpdate, Effect.updateRow table id updates]
        if !inp.resultOk then
          ({ stU with state := { stU.state with isUpdating := false } },
           effs1 ++ [Effect.errorMsg], false)
        else
          let applied :=
            if skipRefresh then
              ({ stU with
                 data := replaceFirstById stU.data id
                   (fun r => r.applyServerUpdates updates) }, ([] : List Effect))
            else refresh stU inp.refreshInput
          let afterEffs :=
            if applied.1.data.any (fun x => x.idVal == some id) then
              [Effect.emit EventName.afterUpdate]
            else ([] : List Effect)
          ({ applied.1 with state := { applied.1.state with isUpdating := false } },
           effs1 ++ applied.2 ++ afterEffs ++ [Effect.infoMsg], true)

/-- The input a `delete` consumes. -/
structure DeleteInput where
  cancelBeforeDelete : Bool
  resultOk : Bool
  refreshInput : RefreshInput
deriving DecidableEq

/-- `delete` (`src/dataObject.ts` lines 529-567): requires the `canDelete`
capability and a `tableName`; silently returns `false` when no loaded
record has the id; emits the cancellable `beforeDelete` hook; executes the
backend delete; on success awaits a full refresh, emits `afterDelete` and
returns `true`. -/
def deleteRecord (st : DataObject) (id : Value) (inp : DeleteInput) :
    DataObject × List Effect × Bool :=
  if !(st.options.canDelete.getD false) || !(truthyStr st.options.tableName) then
    (st, [Effect.warnMsg], false)
  else
    if st.data.all (fun x => !(x.idVal == some id)) then (st, [], false)
    else
      if inp.cancelBeforeDelete then (st, [Effect.emit EventName.beforeDelete], false)
      else
        let table := st.options.tableName.getD ""
        let effs1 := [Effect.emit EventName.beforeDelete, Effect.deleteRow table id]
        if !inp.resultOk then (st, effs1 ++ [Effect.errorMsg], false)
        else
          let refreshed := refresh st inp.refreshInput
          (refreshed.1,
           effs1 ++ refreshed.2 ++ [Effect.emit EventName.afterDelete, Effect.infoMsg],
           true)

/-- `dispose` (`src/dataObject.ts` lines 727-751): guarded by `isDestroyed`;
raises `isDestroyed`, disposes and drops the master binding (because the
binding is dropped first, the `masterDataObject` getter then yields
undefined and the unregister calls are skipped), disposes every registered
child, clears emitters (listener bookkeeping unmodelled), empties the
collection and the current record, and finally calls `state.reset()` —
which sets every flag, `isDestroyed` included, back to `false`. -/
def dispose (st : DataObject) : DataObject × List Effect :=
  if st.state.isDestroyed then (st, [])
  else
    let st1 := { st with state := { st.state with isDestroyed := true } }
    let st2 := { st1 with masterBinding := none }
    let childEffs := st2.childDataObjects.map (fun _ => Effect.childDispose)
    let st3 := { st2 with childDataObjects := [] }
    let st4 := { st3 with data := [], currentRecord := none }
    let st5 := { st4 with state := st4.state.reset }
    (st5, childEffs)

/-- Whether a binding's derived clause is absent or its value is withheld
(undefined or null) — exactly the condition of `loadData`'s short-circuit
branch (`src/dataObject.ts` line 262). -/
def clauseValueWithheld (mb : MasterBinding) : Bool :=
  match mb.bindingWhereClause with
  | none => true
  | some c => if c.value = none ∨ c.value = some Value.vnull then true else false

/-- Whether a binding's `initialize()` fails: master unresolvable, or the
binding fields do not validate against the two field lists. -/
def bindingSetupFails (childFields : List DataObjectField)
    (bdef : MasterDataObjectBinding) (master : Option MasterView) : Bool :=
  match master with
  | none => true
  | some m => !(validateBindingFields childFields m.fields bdef)

/-- The typing guarantee `T extends DataRecordKey`: the current record, when
present, carries an `id` property. -/
def currentHasIdField (st : DataObject) : Bool :=
  match st.currentRecord with
  | none => true
  | some r => (DataRecord.idVal r).isSome

/-- The typing guarantee for fetched rows: every row carries an `id`
property. -/
def rowsHaveIdField (rows : List Row) : Bool :=
  rows.all (fun row => (Row.get? row "id").isSome)

/-- The collection-consistency property as the spec states it: the current
record is undefined or *identity-equal* (the same JS object, i.e. the same
`ref`) to a member of the loaded collection. -/
def currentIsCollectionMember (st : DataObject) : Bool :=
  match st.currentRecord with
  | none => true
  | some c => st.data.any (fun r => r.ref == c.ref)

/-- The weaker property the code maintains: the current record is undefined
or carries the same `id` value as a member of the loaded collection. -/
def currentSharesIdWithMember (st : DataObject) : Prop :=
  st.currentRecord = none ∨
    ∃ r ∈ st.data, DataRecord.idVal r = currentIdOf st.currentRecord

/-- Concrete fixture row: `id 1`. -/
def rowA : Row := [("id", Value.vint 1), ("name", Value.vstr "a")]

/-- Concrete fixture row of a child table: `id 3`, `customer_id 7`. -/
def rowB : Row := [("id", Value.vint 3), ("customer_id", Value.vint 7)]

/-- Fixture flags of a ready, idle controller. -/
def readyIdleState : DataObjectState := ⟨true, false, false, false, false⟩

/-- Fixture field list of the child table. -/
def childFieldsFix : List DataObjectField := [⟨"id", none⟩, ⟨"customer_id", none⟩]

/-- Fixture options of a mutable controller (defaults applied by the
constructor). -/
def mutableOptions : DataObjectOptions :=
  setDefaultOptions
    ⟨"v", some "t", none, none, none, none, some true, some true, some true, none, none⟩

/-- Fixture controller: ready, idle, empty, unbound. -/
def mutableDO : DataObject :=
  ⟨mutableOptions, childFieldsFix, [], none, readyIdleState, none, [], 0⟩

/-- Fixture insert input: backend confirms `rowA`; the follow-up refresh
fetches `rowA` back. -/
def insertInputFix : InsertInput := ⟨false, some [rowA], ⟨false, ⟨false, some [rowA]⟩⟩⟩

/-- Fixture refresh input: uncancelled, backend returns `rowA`. -/
def refreshInputFix : RefreshInput := ⟨false, ⟨false, some [rowA]⟩⟩

/-- Fixture binding definition: child rows' `customer_id` follows the
master's `id`. -/
def bdefFix : MasterDataObjectBinding := ⟨"masterDO", "customer_id", "id"⟩

/-- The binding state `initialize()` leaves behind when the master id is
unresolvable (warning handler supplied). -/
def failedBindingFix : MasterBinding :=
  (MasterBinding.initBinding bdefFix childFieldsFix none true true).1

/-- Fixture options of a bound child controller. -/
def childOptionsFix : DataObjectOptions :=
  setDefaultOptions ⟨"v", none, none, none, none, none, none, none, none, some bdefFix, none⟩

/-- Fixture bound child controller carrying the failed binding. -/
def boundFailedDO : DataObject :=
  ⟨childOptionsFix, childFieldsFix, [], none, readyIdleState, some failedBindingFix, [], 0⟩

/-- The same controller without any master binding configured. -/
def unboundDO : DataObject :=
  ⟨childOptionsFix, childFieldsFix, [], none, readyIdleState, none, [], 0⟩

/-- Fixture load input: uncancelled; the backing store holds the matching
row `rowB`. -/
def loadInputFix : LoadInput := ⟨false, some [rowB]⟩

/-- Fixture bound child whose binding succeeded but whose master currently
withholds the bound value: the derived clause exists with no value. -/
def boundWithheldDO : DataObject :=
  ⟨childOptionsFix, childFieldsFix, [wrapRecord 0 rowB], some (wrapRecord 0 rowB),
   readyIdleState,
   some ⟨bdefFix, some ⟨"customer_id", SupportedOperator.equals, none⟩, true, true⟩,
   [], 1⟩

/-- Fixture controller holding one loaded record which is current. -/
def loadedDO : DataObject :=
  ⟨mutableOptions, childFieldsFix, [wrapRecord 0 rowA], some (wrapRecord 0 rowA),
   readyIdleState, none, [], 1⟩

/-- Fixture controller that is mid-refresh (`isRefreshing` raised). -/
def busyDO : DataObject :=
  ⟨mutableOptions, childFieldsFix, [], none, ⟨true, true, false, false, false⟩, none, [], 0⟩
theorem setField_original (r : DataRecord) (k : String) (v : Value) :
    (r.setField k v).original = r.original := by
  unfold DataRecord.setField
  split <;> rfl

theorem setField_pending_inv (r : DataRecord) (k : String) (v : Value)
    (h : r.pendingDiffersFromBaseline) :
    (r.setField k v).pendingDiffersFromBaseline := by
  unfold DataRecord.setField DataRecord.pendingDiffersFromBaseline
  split
  · exact h
  · intro k' v' hget hbase
    simp only at hget hbase
    by_cases hcond : some v = r.original.get? k
    · rw [if_pos hcond] at hget
      by_cases hk : k' = k
      · subst hk
        rw [Row.get?_eraseKey_self] at hget
        exact Option.noConfusion hget
      · rw [Row.get?_eraseKey_ne _ _ _ hk] at hget
        exact h k' v' hget hbase
    · rw [if_neg hcond] at hget
      by_cases hk : k' = k
      · subst hk
        rw [Row.get?_setKey_self] at hget
        have hv : v = v' := Option.some.inj hget
        subst hv
        exact hcond hbase.symm
      · rw [Row.get?_setKey_ne _ _ _ _ hk] at hget
        exact h k' v' hget hbase

theorem applyOp_pending_inv (r : DataRecord) (op : RecOp)
    (h : r.pendingDiffersFromBaseline) :
    (r.applyOp op).pendingDiffersFromBaseline := by
  cases op with
  | setF k v => exact setField_pending_inv r k v h
  | revertOp =>
    intro k v hget
    simp [DataRecord.revert, Row.get?] at hget
  | applyServer u =>
    intro k v hget
    simp [DataRecord.applyServerUpdates, Row.get?] at hget

theorem applyOps_pending_inv (r : DataRecord) (ops : List RecOp)
    (h : r.pendingDiffersFromBaseline) :
    (r.applyOps ops).pendingDiffersFromBaseline := by
  induction ops generalizing r with
  | nil => exact h
  | cons op rest ih =>
    exact ih (r.applyOp op) (applyOp_pending_inv r op h)

theorem restoreFromBaseline_get_of_not_mem (l acc : Row) (k : String)
    (h : k ∉ l.map Prod.fst) :
    (DataRecord.restoreFromBaseline l acc).get? k = acc.get? k := by
  induction l generalizing acc with
  | nil => rfl
  | cons p rest ih =>
    have hne : k ≠ p.1 := by
      intro hk; exact h (by simp [hk])
    have hrest : k ∉ rest.map Prod.fst := fun hm => h (by simp [hm])
    unfold DataRecord.restoreFromBaseline
    simp only [List.foldl_cons]
    rw [show ∀ a : Row, List.foldl
        (fun acc p => if acc.get? p.1 ≠ some p.2 then acc.setKey p.1 p.2 else acc) a rest
        = DataRecord.restoreFromBaseline rest a from fun a => rfl]
    split
    · rw [ih _ hrest, Row.get?_setKey_ne _ _ _ _ hne]
    · rw [ih _ hrest]

theorem restoreFromBaseline_get_mem (l acc : Row) (k : String) (w : Value)
    (hnd : (l.map Prod.fst).Nodup) (hk : l.get? k = some w) :
    (DataRecord.restoreFromBaseline l acc).get? k = some w := by
  induction l generalizing acc with
  | nil => simp [Row.get?] at hk
  | cons p rest ih =>
    have hnd' : (rest.map Prod.fst).Nodup := by
      simp only [List.map_cons, List.nodup_cons] at hnd
      exact hnd.2
    have hhead : p.1 ∉ rest.map Prod.fst := by
      simp only [List.map_cons, List.nodup_cons] at hnd
      exact hnd.1
    unfold DataRecord.restoreFromBaseline
    simp only [List.foldl_cons]
    rw [show ∀ a : Row, List.foldl
        (fun acc p => if acc.get? p.1 ≠ some p.2 then acc.setKey p.1 p.2 else acc) a rest
        = DataRecord.restoreFromBaseline rest a from fun a => rfl]
    by_cases hph : p.1 = k
    · have hw : p.2 = w := by
        simp [Row.get?, hph] at hk; exact hk
      subst hph; subst hw
      have hacc : ∀ a : Row,
          (if a.get? p.1 ≠ some p.2 then a.setKey p.1 p.2 else a).get? p.1 = some p.2 := by
        intro a
        split
        · exact Row.get?_setKey_self a p.1 p.2
        · rename_i hcond
          simp only [ne_eq, not_not] at hcond
          exact hcond
      rw [restoreFromBaseline_get_of_not_mem _ _ _ hhead, hacc]
    · have hk' : Row.get? rest k = some w := by
        simpa [Row.get?, hph] using hk
      exact ih _ hnd' hk'

theorem isBackendCall_setCurrentRecord (st : DataObject) (r : Option DataRecord) :
    ∀ e ∈ (setCurrentRecord st r).2, isBackendCall e = false := by
  intro e he
  unfold setCurrentRecord at he
  split at he
  · simp at he
  · simp only [List.mem_append, List.mem_cons, List.not_mem_nil, or_false,
      List.mem_filterMap] at he
    rcases he with (rfl | rfl) | ⟨c, _, hfc⟩
    · rfl
    · rfl
    · split at hfc
      · injection hfc with h; rw [← h]; rfl
      · cases hfc

theorem backendCalls_eq_nil_of (effs : List Effect)
    (h : ∀ e ∈ effs, isBackendCall e = false) : backendCalls effs = [] := by
  unfold backendCalls
  exact List.filter_eq_nil_iff.mpr (fun e he => by simp [h e he])

theorem queriesOf_eq_nil_of (effs : List Effect)
    (h : ∀ e ∈ effs, isBackendCall e = false) : queriesOf effs = [] := by
  unfold queriesOf
  refine List.filterMap_eq_nil_iff.mpr (fun e he => ?_)
  have hb := h e he
  cases e <;> simp_all [isBackendCall]

theorem setCurrentRecord_none (st : DataObject)
    (hid : currentHasIdField st = true) :
    (setCurrentRecord st none).1 = { st with currentRecord := none } := by
  unfold setCurrentRecord
  split
  · rename_i h
    cases hcur : st.currentRecord with
    | none =>
      obtain ⟨o, f, d, c, s, m, ch, n⟩ := st
      simp only at hcur
      subst hcur
      rfl
    | some r =>
      exfalso
      have h' : DataRecord.idVal r = none := by
        rw [hcur] at h
        simpa [currentIdOf] using h
      have hid' : (DataRecord.idVal r).isSome = true := by
        unfold currentHasIdField at hid
        rw [hcur] at hid
        exact hid
      rw [h'] at hid'
      cases hid'
  · rfl

theorem shortCircuitEmptyResult_spec (st : DataObject)
    (hid : currentHasIdField st = true) :
    (shortCircuitEmptyResult st).1.data = [] ∧
    (shortCircuitEmptyResult st).1.currentRecord = none ∧
    (∀ e ∈ (shortCircuitEmptyResult st).2, isBackendCall e = false) := by
  have hstA : currentHasIdField { st with data := ([] : List DataRecord) } = true := hid
  have hset := setCurrentRecord_none { st with data := ([] : List DataRecord) } hstA
  refine ⟨?_, ?_, ?_⟩
  · show ((setCurrentRecord { st with data := ([] : List DataRecord) } none).1).data = []
    rw [hset]
  · show ((setCurrentRecord { st with data := ([] : List DataRecord) } none).1).currentRecord = none
    rw [hset]
  · intro e he
    have hmem : e ∈ (setCurrentRecord { st with data := ([] : List DataRecord) } none).2 ++
        [Effect.emit EventName.afterLoad] := he
    rcases List.mem_append.mp hmem with hl | hr
    · exact isBackendCall_setCurrentRecord _ _ e hl
    · simp only [List.mem_singleton] at hr
      rw [hr]
      rfl

theorem loadData_shortCircuit_spec (st : DataObject) (inp : LoadInput)
    (mb : MasterBinding) (hmb : st.masterBinding = some mb)
    (hwith : clauseValueWithheld mb = true)
    (hcancel : inp.cancelBeforeLoad = false)
    (hid : currentHasIdField st = true) :
    (loadData st inp).1.data = [] ∧
    (loadData st inp).1.currentRecord = none ∧
    backendCalls (loadData st inp).2 = [] ∧
    queriesOf (loadData st inp).2 = [] := by
  have hid2 : currentHasIdField { st with
      state := { st.state with isRefreshing := true }
      fields := inferredFields st.options st.fields
      masterBinding := some mb } = true := hid
  have hspec := shortCircuitEmptyResult_spec { st with
      state := { st.state with isRefreshing := true }
      fields := inferredFields st.options st.fields
      masterBinding := some mb } hid2
  have hmemAll : ∀ e ∈ Effect.emit EventName.beforeLoad ::
      (shortCircuitEmptyResult { st with
        state := { st.state with isRefreshing := true }
        fields := inferredFields st.options st.fields
        masterBinding := some mb }).2, isBackendCall e = false := by
    intro e he
    rcases List.mem_cons.mp he with rfl | he
    · rfl
    · exact hspec.2.2 e he
  cases hbc : mb.bindingWhereClause with
  | none =>
    simp only [loadData, hcancel, Bool.false_eq_true, if_false, hmb, hbc]
    exact ⟨hspec.1, hspec.2.1, backendCalls_eq_nil_of _ hmemAll, queriesOf_eq_nil_of _ hmemAll⟩
  | some c =>
    have hcond : c.value = none ∨ c.value = some Value.vnull := by
      unfold clauseValueWithheld at hwith
      rw [hbc] at hwith
      have hwith' : (if c.value = none ∨ c.value = some Value.vnull then true else false)
          = true := hwith
      by_cases hcv : c.value = none ∨ c.value = some Value.vnull
      · exact hcv
      · rw [if_neg hcv] at hwith'
        cases hwith'
    simp only [loadData, hcancel, Bool.false_eq_true, if_false, hmb, hbc, if_pos hcond]
    exact ⟨hspec.1, hspec.2.1, backendCalls_eq_nil_of _ hmemAll, queriesOf_eq_nil_of _ hmemAll⟩

/-- Claim C1: for every child controller with an active master binding, a
load performed while the binding's derived where-clause is absent or its
value is null/undefined sets the controller's collection to the empty array
and its current record to undefined without issuing any backend query —
regardless of what the backing store would return (the load never consults
the response).  `currentHasIdField` is the `T extends DataRecordKey` typing
guarantee that a record carries an `id` property. -/
theorem withheld_binding_load_short_circuits_empty (st : DataObject)
    (inp : LoadInput) (mb : MasterBinding)
    (hmb : st.masterBinding = some mb)
    (hwith : clauseValueWithheld mb = true)
    (hcancel : inp.cancelBeforeLoad = false)
    (hid : currentHasIdField st = true) :
    (loadData st inp).1.data = [] ∧
    (loadData st inp).1.currentRecord = none ∧
    backendCalls (loadData st inp).2 = [] :=
  ⟨(loadData_shortCircuit_spec st inp mb hmb hwith hcancel hid).1,
   (loadData_shortCircuit_spec st inp mb hmb hwith hcancel hid).2.1,
   (loadData_shortCircuit_spec st inp mb hmb hwith hcancel hid).2.2.1⟩

/-- Witness for C1: a bound child whose master currently withholds the
bound value loads to an empty collection, a cleared current record and no
backend call, even though the backing store holds a matching row. -/
theorem withheld_binding_load_short_circuits_empty_witness :
    boundWithheldDO.masterBinding =
      some ⟨bdefFix, some ⟨"customer_id", SupportedOperator.equals, none⟩, true, true⟩ ∧
    clauseValueWithheld
      ⟨bdefFix, some ⟨"customer_id", SupportedOperator.equals, none⟩, true, true⟩ = true ∧
    loadInputFix.cancelBeforeLoad = false ∧
    currentHasIdField boundWithheldDO = true ∧
    ((loadData boundWithheldDO loadInputFix).1.data = [] ∧
     (loadData boundWithheldDO loadInputFix).1.currentRecord = none ∧
     backendCalls (loadData boundWithheldDO loadInputFix).2 = []) :=
  ⟨by decide, by decide, by decide, by decide,
   withheld_binding_load_short_circuits_empty boundWithheldDO loadInputFix
     ⟨bdefFix, some ⟨"customer_id", SupportedOperator.equals, none⟩, true, true⟩
     (by decide) (by decide) (by decide) (by decide)⟩

/-- Claim C2: a refresh() call arriving while a refresh is already in
flight (the is-refreshing flag set) returns immediately as a pure no-op —
identical state, no events, no fetch — and two concurrent refresh() calls
on one controller are together equivalent to a single refresh() call
(exactly one backend fetch cycle, the second call contributing nothing). -/
theorem concurrent_refresh_second_call_noop (stBusy stIdle : DataObject)
    (inp inpA inpB : RefreshInput)
    (hbusy : stBusy.state.isRefreshing = true)
    (hidle : stIdle.state.isRefreshing = false) :
    refresh stBusy inp = (stBusy, []) ∧
    twoConcurrentRefreshes stIdle inpA inpB = refresh stIdle inpA := by
  constructor
  · unfold refresh
    rw [if_pos hbusy]
  · simp [twoConcurrentRefreshes, refresh, hidle]

/-- Witness for C2: a mid-refresh controller drops an arriving refresh()
unchanged with no effects, and two concurrent refreshes on an idle
controller equal one refresh. -/
theorem concurrent_refresh_second_call_noop_witness :
    busyDO.state.isRefreshing = true ∧
    mutableDO.state.isRefreshing = false ∧
    (refresh busyDO refreshInputFix = (busyDO, []) ∧
     twoConcurrentRefreshes mutableDO refreshInputFix refreshInputFix =
       refresh mutableDO refreshInputFix) :=
  ⟨by decide, by decide,
   concurrent_refresh_second_call_noop busyDO mutableDO refreshInputFix refreshInputFix
     refreshInputFix (by decide) (by decide)⟩

/-- Claim C5: for every Record and every field of the record (a key of its
baseline object, whose keys are unique as JS object keys are), setting the
field to any value and then calling revert() restores the field's live
value to its pre-mutation baseline value and leaves the field absent from
the pending-change set — indeed revert() clears every pending change, so
hasChanges is false. -/
theorem set_then_revert_restores_baseline (r : DataRecord) (f : String) (v : Value)
    (hnd : (Row.keys r.original).Nodup)
    (hf : (Row.get? r.original f).isSome = true) :
    ((r.setField f v).revert).record.get? f = Row.get? r.original f ∧
    ((r.setField f v).revert).pendingChanges.get? f = none ∧
    ((r.setField f v).revert).hasChanges = false := by
  cases hw : Row.get? r.original f with
  | none => rw [hw] at hf; cases hf
  | some w =>
    refine ⟨?_, rfl, rfl⟩
    show (DataRecord.restoreFromBaseline (r.setField f v).original
      (r.setField f v).record).get? f = some w
    rw [setField_original]
    exact restoreFromBaseline_get_mem r.original _ f w hnd hw

/-- Witness for C5: overwriting the name field of a freshly wrapped record
and reverting restores the baseline value and clears the dirty state. -/
theorem set_then_revert_restores_baseline_witness :
    (Row.keys (wrapRecord 0 rowA).original).Nodup ∧
    (Row.get? (wrapRecord 0 rowA).original "name").isSome = true ∧
    ((((wrapRecord 0 rowA).setField "name" (Value.vstr "b")).revert).record.get? "name" =
       Row.get? (wrapRecord 0 rowA).original "name" ∧
     (((wrapRecord 0 rowA).setField "name" (Value.vstr "b")).revert).pendingChanges.get? "name" =
       none ∧
     (((wrapRecord 0 rowA).setField "name" (Value.vstr "b")).revert).hasChanges = false) :=
  ⟨by decide, by decide,
   set_then_revert_restores_baseline (wrapRecord 0 rowA) "name" (Value.vstr "b")
     (by decide) (by decide)⟩

/-- Claim C6: invariant — starting from a freshly wrapped record, after any
sequence of intercepted field writes, revert() calls and
applyServerUpdates() calls, the pending-change set contains no field whose
recorded value equals that field's baseline value. -/
theorem pending_change_never_equals_baseline (ref : Nat) (raw : Row)
    (ops : List RecOp) :
    (DataRecord.applyOps (wrapRecord ref raw) ops).pendingDiffersFromBaseline :=
  applyOps_pending_inv _ ops (by
    intro k v h
    simp [wrapRecord, Row.get?] at h)

theorem setCurrentRecord_result (st : DataObject) (r : Option DataRecord) :
    ((setCurrentRecord st r).1.data = st.data) ∧
    ((setCurrentRecord st r).1.currentRecord = r ∨
      ((setCurrentRecord st r).1.currentRecord = st.currentRecord ∧
        currentIdOf st.currentRecord = currentIdOf r)) := by
  unfold setCurrentRecord
  split
  · rename_i h
    exact ⟨rfl, Or.inr ⟨rfl, h⟩⟩
  · exact ⟨rfl, Or.inl rfl⟩

theorem runMainQuery_ok_state (st : DataObject) (bf : Option WhereClause)
    (inp : LoadInput) (rows : List Row) (hresp : inp.response = some rows) :
    (runMainQuery st bf inp).1.data =
      (setCurrentRecord (loadReplacedState st rows)
        (allocRecords st.nextRef rows).head?).1.data ∧
    (runMainQuery st bf inp).1.currentRecord =
      (setCurrentRecord (loadReplacedState st rows)
        (allocRecords st.nextRef rows).head?).1.currentRecord := by
  unfold runMainQuery
  rw [hresp]
  exact ⟨rfl, rfl⟩

theorem runMainQuery_sharesId (st : DataObject) (bf : Option WhereClause)
    (inp : LoadInput) (rows : List Row)
    (hresp : inp.response = some rows)
    (hid : currentHasIdField st = true) :
    currentSharesIdWithMember (runMainQuery st bf inp).1 := by
  have hstate := runMainQuery_ok_state st bf inp rows hresp
  have hres := setCurrentRecord_result (loadReplacedState st rows)
    ((allocRecords st.nextRef rows).head?)
  unfold currentSharesIdWithMember
  rw [hstate.1, hstate.2, hres.1]
  cases rows with
  | nil =>
    rcases hres.2 with hcur | ⟨hcur, hguard⟩
    · left
      rw [hcur]
      rfl
    · left
      rw [hcur]
      show st.currentRecord = none
      cases hc : st.currentRecord with
      | none => rfl
      | some r =>
        exfalso
        have hguard' : currentIdOf (some r) = currentIdOf none := by
          rw [← hc]
          exact hguard
        have hnone : DataRecord.idVal r = none := by
          simpa [currentIdOf] using hguard'
        have hid' : (DataRecord.idVal r).isSome = true := by
          unfold currentHasIdField at hid
          rw [hc] at hid
          exact hid
        rw [hnone] at hid'
        cases hid'
  | cons r0 rest =>
    right
    have hmem : wrapRecord st.nextRef r0 ∈ allocRecords st.nextRef (r0 :: rest) := by
      show wrapRecord st.nextRef r0 ∈
        wrapRecord st.nextRef r0 :: allocRecords (st.nextRef + 1) rest
      exact List.mem_cons_self _ _
    rcases hres.2 with hcur | ⟨hcur, hguard⟩
    · refine ⟨wrapRecord st.nextRef r0, hmem, ?_⟩
      rw [hcur]
      rfl
    · refine ⟨wrapRecord st.nextRef r0, hmem, ?_⟩
      rw [hcur]
      show DataRecord.idVal (wrapRecord st.nextRef r0) = currentIdOf st.currentRecord
      have hguard' : currentIdOf st.currentRecord =
          DataRecord.idVal (wrapRecord st.nextRef r0) := hguard
      rw [hguard']

theorem isBackendCall_shortCircuit (st : DataObject) :
    ∀ e ∈ (shortCircuitEmptyResult st).2, isBackendCall e = false := by
  intro e he
  have hmem : e ∈ (setCurrentRecord { st with data := ([] : List DataRecord) } none).2 ++
      [Effect.emit EventName.afterLoad] := he
  rcases List.mem_append.mp hmem with hl | hr
  · exact isBackendCall_setCurrentRecord _ _ e hl
  · simp only [List.mem_singleton] at hr
    rw [hr]
    rfl

theorem queriesOf_emit_cons (e : EventName) (effs : List Effect) :
    queriesOf (Effect.emit e :: effs) = queriesOf effs := rfl

theorem queriesOf_runMainQuery (st : DataObject) (bf : Option WhereClause)
    (inp : LoadInput) :
    queriesOf (runMainQuery st bf inp).2 = [buildQuery st.options bf] := by
  unfold runMainQuery
  cases hresp : inp.response with
  | none => rfl
  | some rows =>
    have h2 := queriesOf_eq_nil_of _
      (isBackendCall_setCurrentRecord (loadReplacedState st rows)
        ((allocRecords st.nextRef rows).head?))
    show queriesOf ([Effect.runQuery (buildQuery st.options bf)] ++
      (setCurrentRecord (loadReplacedState st rows)
        ((allocRecords st.nextRef rows).head?)).2 ++
      [Effect.dataChanged, Effect.emit EventName.afterLoad]) = [buildQuery st.options bf]
    unfold queriesOf at h2 ⊢
    rw [List.filterMap_append, List.filterMap_append, h2]
    rfl

/-- Claim C4 (amended form): after every successful load, the current
record is either undefined or agrees on its `id` value with a member of the
freshly loaded collection.  (Identity-equality fails; see the
counterexample.) -/
theorem load_current_id_consistent (st : DataObject) (inp : LoadInput)
    (rows : List Row)
    (hresp : inp.response = some rows)
    (hcancel : inp.cancelBeforeLoad = false)
    (hid : currentHasIdField st = true) :
    currentSharesIdWithMember (loadData st inp).1 := by
  cases hmb : st.masterBinding with
  | none =>
    simp only [loadData, hcancel, Bool.false_eq_true, if_false, hmb]
    exact runMainQuery_sharesId _ none inp rows hresp hid
  | some mb =>
    cases hbc : mb.bindingWhereClause with
    | none =>
      have hspec := shortCircuitEmptyResult_spec { st with
        state := { st.state with isRefreshing := true }
        fields := inferredFields st.options st.fields
        masterBinding := some mb } hid
      simp only [loadData, hcancel, Bool.false_eq_true, if_false, hmb, hbc]
      left
      exact hspec.2.1
    | some c =>
      by_cases hcv : c.value = none ∨ c.value = some Value.vnull
      · have hspec := shortCircuitEmptyResult_spec { st with
          state := { st.state with isRefreshing := true }
          fields := inferredFields st.options st.fields
          masterBinding := some mb } hid
        simp only [loadData, hcancel, Bool.false_eq_true, if_false, hmb, hbc, if_pos hcv]
        left
        exact hspec.2.1
      · simp only [loadData, hcancel, Bool.false_eq_true, if_false, hmb, hbc, if_neg hcv]
        exact runMainQuery_sharesId _
          (some ⟨c.field, SupportedOperator.equals, c.value⟩) inp rows hresp hid

/-- Witness for the amended C4: loading a fresh row over a stale current
record leaves the current record id-consistent with the new collection. -/
theorem load_current_id_consistent_witness :
    loadInputFix.response = some [rowB] ∧
    loadInputFix.cancelBeforeLoad = false ∧
    currentHasIdField loadedDO = true ∧
    currentSharesIdWithMember (loadData loadedDO loadInputFix).1 :=
  ⟨by decide, by decide, by decide,
   load_current_id_consistent loadedDO loadInputFix [rowB]
     (by decide) (by decide) (by decide)⟩

/-- Counterexample to claim C4 as stated: `insert` with `setAsCurrent`
stores the raw inserted row into `_currentRecord` directly; the follow-up
load wraps the re-fetched rows in fresh objects, and because the inserted
row comes back first, the setter's id-equality guard skips the reassignment
— the load succeeds (the collection is non-empty), yet the current record
is not identity-equal to any member of the collection. -/
theorem current_identity_after_insert_counterexample :
    (insert mutableDO rowA true insertInputFix).1.data ≠ [] ∧
    (insert mutableDO rowA true insertInputFix).2.2 = some rowA ∧
    currentIsCollectionMember (insert mutableDO rowA true insertInputFix).1 = false := by
  decide

/-- Claim C3 (amended form): when a master binding fails (master not
resolvable, or a binding field missing from either field list), exactly one
warning is reported through the supplied handler and no exception
propagates; but the child's subsequent loads do NOT run unfiltered —
because the failed binding remains attached with its derived clause
permanently absent, every uncancelled load short-circuits to the empty
collection without issuing any backend query. -/
theorem failed_binding_child_loads_empty (childFields : List DataObjectField)
    (bdef : MasterDataObjectBinding) (master : Option MasterView)
    (st : DataObject) (inp : LoadInput)
    (hfail : bindingSetupFails childFields bdef master = true)
    (hmb : st.masterBinding =
      some (MasterBinding.initBinding bdef childFields master true true).1)
    (hcancel : inp.cancelBeforeLoad = false)
    (hid : currentHasIdField st = true) :
    warnCount (MasterBinding.initBinding bdef childFields master true true).2 = 1 ∧
    (MasterBinding.initBinding bdef childFields master true true).1.bindingWhereClause =
      none ∧
    (loadData st inp).1.data = [] ∧
    (loadData st inp).1.currentRecord = none ∧
    queriesOf (loadData st inp).2 = [] := by
  have hb : MasterBinding.initBinding bdef childFields master true true =
      (⟨bdef, none, false, false⟩, [Effect.warnMsg]) := by
    unfold bindingSetupFails at hfail
    unfold MasterBinding.initBinding
    cases master with
    | none => rfl
    | some m =>
      have hf : (!(validateBindingFields childFields m.fields bdef)) = true := hfail
      dsimp only
      rw [if_pos hf]
      rfl
  have hwith : clauseValueWithheld
      (MasterBinding.initBinding bdef childFields master true true).1 = true := by
    rw [hb]
    rfl
  have hspec := loadData_shortCircuit_spec st inp _ hmb hwith hcancel hid
  exact ⟨by rw [hb]; rfl, by rw [hb], hspec.1, hspec.2.1, hspec.2.2.2⟩

/-- Witness for the amended C3: a child bound to an unresolvable master id
gets one warning, no clause, and empty query-free loads even though the
store holds a matching row. -/
theorem failed_binding_child_loads_empty_witness :
    bindingSetupFails childFieldsFix bdefFix none = true ∧
    boundFailedDO.masterBinding =
      some (MasterBinding.initBinding bdefFix childFieldsFix none true true).1 ∧
    loadInputFix.cancelBeforeLoad = false ∧
    currentHasIdField boundFailedDO = true ∧
    (warnCount (MasterBinding.initBinding bdefFix childFieldsFix none true true).2 = 1 ∧
     (MasterBinding.initBinding bdefFix childFieldsFix none true true).1.bindingWhereClause =
       none ∧
     (loadData boundFailedDO loadInputFix).1.data = [] ∧
     (loadData boundFailedDO loadInputFix).1.currentRecord = none ∧
     queriesOf (loadData boundFailedDO loadInputFix).2 = []) :=
  ⟨by decide, by decide, by decide, by decide,
   failed_binding_child_loads_empty childFieldsFix bdefFix none boundFailedDO loadInputFix
     (by decide) (by decide) (by decide) (by decide)⟩

/-- Counterexample to claim C3 as stated: after a failed binding the
child's loads are NOT unfiltered — with a matching row in the backing
store, the bound child loads the empty collection and issues no query,
while the identical unbound controller loads the row; the warning fires
exactly once. -/
theorem failed_binding_not_unfiltered_counterexample :
    warnCount (MasterBinding.initBinding bdefFix childFieldsFix none true true).2 = 1 ∧
    (loadData boundFailedDO loadInputFix).1.data = [] ∧
    queriesOf (loadData boundFailedDO loadInputFix).2 = [] ∧
    (loadData unboundDO loadInputFix).1.data ≠ [] ∧
    (loadData unboundDO loadInputFix).1.data ≠ (loadData boundFailedDO loadInputFix).1.data := by
  decide

/-- Claim C7 (amended form): the destroyed state is NOT terminal.
`dispose()` guards only its own re-entry: it raises `isDestroyed` while it
runs, but finishes with `state.reset()`, which clears every flag including
`isDestroyed` — so after `dispose()` returns the controller is no longer
destroyed, and a subsequent `refresh()` executes its normal body (it emits
events; it is not a no-op). -/
theorem dispose_unguards_subsequent_operations (st : DataObject)
    (inp : RefreshInput) (h : st.state.isDestroyed = false) :
    (dispose st).1.state.isDestroyed = false ∧
    (refresh (dispose st).1 inp).2 ≠ [] := by
  have hd : (dispose st).1 = { st with
      masterBinding := none
      childDataObjects := []
      data := []
      currentRecord := none
      state := ⟨false, false, false, false, false⟩ } := by
    unfold dispose
    rw [if_neg (by simp [h])]
    rfl
  refine ⟨by rw [hd], ?_⟩
  rw [hd]
  unfold refresh
  rw [if_neg (by simp)]
  unfold refreshBody
  by_cases hc : inp.cancelBeforeRefresh
  · rw [if_pos hc]
    simp
  · rw [if_neg hc]
    simp

/-- Witness for the amended C7: disposing a live controller leaves it
undestroyed and a following refresh runs (emits events). -/
theorem dispose_unguards_subsequent_operations_witness :
    mutableDO.state.isDestroyed = false ∧
    ((dispose mutableDO).1.state.isDestroyed = false ∧
     (refresh (dispose mutableDO).1 refreshInputFix).2 ≠ []) :=
  ⟨by decide,
   dispose_unguards_subsequent_operations mutableDO refreshInputFix (by decide)⟩

/-- Counterexample to claim C7 as stated: after `dispose()` the controller
does not remain destroyed (`state.reset()` cleared the flag), and a
subsequent `refresh()` is not a no-op — it issues a backend query and
repopulates the collection. -/
theorem destroyed_not_terminal_counterexample :
    (dispose loadedDO).1.state.isDestroyed = false ∧
    refresh (dispose loadedDO).1 refreshInputFix ≠ ((dispose loadedDO).1, []) ∧
    queriesOf (refresh (dispose loadedDO).1 refreshInputFix).2 ≠ [] ∧
    (refresh (dispose loadedDO).1 refreshInputFix).1.data ≠ [] := by
  decide

/-- Claim C8: for each operation with a cancellable before-hook (load,
refresh, insert, update, delete), a cancellation during the before-hook
aborts the operation before any backend call: the controller state —
collection and records included — is unchanged, no query or row mutation is
issued, and the operation returns its failure indicator (undefined, false
or null). -/
theorem cancelled_before_hooks_abort (st : DataObject)
    (resp ires : Option (List Row)) (linp : LoadInput) (record : Row)
    (b skip uok dok : Bool) (rinpA rinpB rinpC : RefreshInput)
    (id : Value) (updates : Row) :
    loadData st ⟨true, resp⟩ = (st, [Effect.emit EventName.beforeLoad]) ∧
    ((refresh st ⟨true, linp⟩).1 = st ∧ backendCalls (refresh st ⟨true, linp⟩).2 = []) ∧
    ((insert st record b ⟨true, ires, rinpA⟩).1 = st ∧
      (insert st record b ⟨true, ires, rinpA⟩).2.2 = none ∧
      backendCalls (insert st record b ⟨true, ires, rinpA⟩).2.1 = []) ∧
    ((update st id updates skip ⟨true, uok, rinpB⟩).1 = st ∧
      (update st id updates skip ⟨true, uok, rinpB⟩).2.2 = false ∧
      backendCalls (update st id updates skip ⟨true, uok, rinpB⟩).2.1 = []) ∧
    ((deleteRecord st id ⟨true, dok, rinpC⟩).1 = st ∧
      (deleteRecord st id ⟨true, dok, rinpC⟩).2.2 = false ∧
      backendCalls (deleteRecord st id ⟨true, dok, rinpC⟩).2.1 = []) := by
  obtain ⟨o, f, d, c, s, m, ch, n⟩ := st
  obtain ⟨s1, s2, s3, s4, s5⟩ := s
  refine ⟨rfl, ?_, ?_, ?_, ?_⟩
  · cases s2 <;> exact ⟨rfl, rfl⟩
  · unfold insert
    split
    · exact ⟨rfl, rfl, rfl⟩
    · exact ⟨rfl, rfl, rfl⟩
  · unfold update
    split
    · exact ⟨rfl, rfl, rfl⟩
    · split
      · exact ⟨rfl, rfl, rfl⟩
      · exact ⟨rfl, rfl, rfl⟩
  · unfold deleteRecord
    split
    · exact ⟨rfl, rfl, rfl⟩
    · split
      · exact ⟨rfl, rfl, rfl⟩
      · exact ⟨rfl, rfl, rfl⟩

theorem loadData_queries_limited (st : DataObject) (inp : LoadInput)
    (hlimit : st.options.recordLimit = some 100) :
    (queriesOf (loadData st inp).2).all (fun q => q.limit == some 100) = true := by
  have hbuild : ∀ bf, (buildQuery st.options bf).limit = some 100 := by
    intro bf
    unfold buildQuery
    rw [hlimit]
    rfl
  cases hcan : inp.cancelBeforeLoad with
  | true => simp [loadData, hcan, queriesOf]
  | false =>
    cases hmb : st.masterBinding with
    | none =>
      simp only [loadData, hcan, Bool.false_eq_true, if_false, hmb, queriesOf_emit_cons,
        queriesOf_runMainQuery]
      simp only [List.all_cons, List.all_nil, Bool.and_true]
      rw [show (buildQuery st.options none).limit = some 100 from hbuild none]
      rfl
    | some mb =>
      cases hbc : mb.bindingWhereClause with
      | none =>
        simp only [loadData, hcan, Bool.false_eq_true, if_false, hmb, hbc,
          queriesOf_emit_cons]
        rw [queriesOf_eq_nil_of _ (isBackendCall_shortCircuit _)]
        rfl
      | some cl =>
        by_cases hcv : cl.value = none ∨ cl.value = some Value.vnull
        · simp only [loadData, hcan, Bool.false_eq_true, if_false, hmb, hbc, if_pos hcv,
            queriesOf_emit_cons]
          rw [queriesOf_eq_nil_of _ (isBackendCall_shortCircuit _)]
          rfl
        · simp only [loadData, hcan, Bool.false_eq_true, if_false, hmb, hbc, if_neg hcv,
            queriesOf_emit_cons, queriesOf_runMainQuery]
          simp only [List.all_cons, List.all_nil, Bool.and_true]
          rw [show (buildQuery st.options
            (some ⟨cl.field, SupportedOperator.equals, cl.value⟩)).limit = some 100 from
            hbuild _]
          rfl

/-- Claim C9: a controller constructed without an explicit `recordLimit`
option gets `recordLimit` defaulted to 100 by `setDefaultOptions`, and every
backend query its loads issue carries a limit of 100 rows — leaving the
option blank does not fetch unlimited rows. -/
theorem default_record_limit_hundred (options : DataObjectOptions)
    (st : DataObject) (inp : LoadInput)
    (hnone : options.recordLimit = none)
    (hst : st.options = setDefaultOptions options) :
    (setDefaultOptions options).recordLimit = some 100 ∧
    (queriesOf (loadData st inp).2).all (fun q => q.limit == some 100) = true := by
  have h1 : (setDefaultOptions options).recordLimit = some 100 := by
    simp [setDefaultOptions, hnone]
  refine ⟨h1, loadData_queries_limited st inp ?_⟩
  rw [hst]
  exact h1

/-- Witness for C9: the fixture options omit `recordLimit`; the defaulted
controller's load issues its query with limit 100. -/
theorem default_record_limit_hundred_witness :
    (⟨"v", some "t", none, none, none, none, some true, some true, some true,
      none, none⟩ : DataObjectOptions).recordLimit = none ∧
    mutableDO.options = setDefaultOptions
      ⟨"v", some "t", none, none, none, none, some true, some true, some true,
       none, none⟩ ∧
    ((setDefaultOptions
      ⟨"v", some "t", none, none, none, none, some true, some true, some true,
       none, none⟩).recordLimit = some 100 ∧
     (queriesOf (loadData mutableDO loadInputFix).2).all
       (fun q => q.limit == some 100) = true) :=
  ⟨by decide, by decide,
   default_record_limit_hundred
     ⟨"v", some "t", none, none, none, none, some true, some true, some true,
      none, none⟩ mutableDO loadInputFix (by decide) (by decide)⟩

/-- Claim C10: `MasterBinding.dispose()` detaches only the master's
`currentRecordChanged` listener and clears the derived clause; the
`afterRefresh` listener registered during binding setup remains attached to
the master, so after the binding is disposed a master refresh still
triggers the child's refresh exactly when the child's `autoRefresh` option
is enabled. -/
theorem binding_dispose_keeps_after_refresh_listener (b : MasterBinding)
    (childAutoRefresh : Bool) :
    (MasterBinding.dispose b).masterDataChangeListener = false ∧
    (MasterBinding.dispose b).bindingWhereClause = none ∧
    (MasterBinding.dispose b).afterRefreshListenerOnMaster =
      b.afterRefreshListenerOnMaster ∧
    masterAfterRefreshTriggersChildRefresh (MasterBinding.dispose b) childAutoRefresh =
      (b.afterRefreshListenerOnMaster && childAutoRefresh) ∧
    masterAfterRefreshTriggersChildRefresh
      (MasterBinding.dispose (setupMasterDataChangeListener b)) childAutoRefresh =
      childAutoRefresh := by
  refine ⟨rfl, rfl, rfl, rfl, ?_⟩
  simp [masterAfterRefreshTriggersChildRefresh, MasterBinding.dispose,
    setupMasterDataChangeListener]
